import Mathlib

/-!
Verification development for the IDEXX discrepancy reconciliation engine
(src/discrepancy.py).  The Python pipeline is shallowly embedded:

* spreadsheet cells of the latest sheet become the inductive `Cell`;
* pandas numeric coercion (`pd.to_numeric(col, errors="coerce")`, lines
  167-168) and Python `int(x)` (line 185) become `Cell.toNumeric`, with
  numeric values modelled as integers;
* the SQL store becomes an abstract `Store` whose affected-row count depends
  only on the workorder id, because the UPDATE statement at lines 52-60
  filters rows with `WHERE i.workorderid = :workorderid AND mlcm.ColumnId=38`
  (the bound value appears only in the SET clause and none of the columns it
  writes occur in the WHERE/JOIN conditions, so the matched-row count is a
  fixed function of the workorder id);
* `update_db` (lines 41-75) becomes `update_db`;
* the data-processing core of `process_excel_file` (lines 112-225) becomes
  the pure `processDF` over the typed rows of the latest sheet;
* the dynamic header search (lines 125-138) becomes `findHeaderRow`;
* the file lifecycle of `process_new_files` (lines 258-287) becomes
  `process_new_files` over an explicit `Locations` state.
-/

deriving instance DecidableEq for Except

namespace Idexx

/-- Python `str.lower()` (ASCII case folding), computed structurally over the
character list so that the kernel can evaluate it. -/
def strLower (s : String) : String :=
  String.mk (s.data.map Char.toLower)

/-- Whitespace test used by Python `str.strip()`. -/
def isWsp (c : Char) : Bool :=
  c == ' ' || c == '\t' || c == '\n' || c == '\r'

/-- Python `str.strip()`: drop leading and trailing whitespace. -/
def strTrim (s : String) : String :=
  String.mk (((s.data.dropWhile isWsp).reverse.dropWhile isWsp).reverse)

/-- Value of one decimal digit character. -/
def digitVal? (c : Char) : Option Nat :=
  if c.isDigit then some (c.toNat - 48) else none

/-- Accumulating decimal parser over a character list. -/
def digitsValAux : List Char → Nat → Option Nat
  | [], acc => some acc
  | c :: cs, acc =>
    match digitVal? c with
    | some d => digitsValAux cs (acc * 10 + d)
    | none => none

/-- Decimal parser: a non-empty all-digit list, or failure. -/
def digitsVal? : List Char → Option Nat
  | [] => none
  | l => digitsValAux l 0

/-- Python integer parsing, `int(s)`: an optional sign followed by decimal
digits; anything else raises (modelled as `none`). -/
def parseInt? (s : String) : Option Int :=
  match s.data with
  | '-' :: cs => (digitsVal? cs).map (fun n => -(n : Int))
  | '+' :: cs => (digitsVal? cs).map (fun n => (n : Int))
  | cs => (digitsVal? cs).map (fun n => (n : Int))

/-- A spreadsheet cell of the latest sheet: a numeric value, a text value, or
a missing value (pandas NaN).  Numeric cells are modelled as integers. -/
inductive Cell where
  | num (n : Int)
  | str (s : String)
  | missing
deriving DecidableEq, Repr

/-- Numeric coercion of a cell.  Models both `pd.to_numeric(col,
errors="coerce")` (src/discrepancy.py lines 167-168) where failures become
NaN, and Python `int(x)` (line 185) where failures raise: numbers pass
through, numeric text parses, everything else fails. -/
def Cell.toNumeric : Cell → Option Int
  | .num n => some n
  | .str s => parseInt? s
  | .missing => none

/-- One record of the latest sheet, with the four semantically relevant
columns resolved.  `notes = none` models a NaN cell in the notes column. -/
structure Row where
  workorder : Cell
  vendor : Cell
  lab : Cell
  notes : Option String
deriving DecidableEq, Repr

/-- Default row used with `List.getD`. -/
def rowDefault : Row := ⟨Cell.missing, Cell.missing, Cell.missing, none⟩

/-- The typed view of the latest sheet: its rows plus whether a notes/note
column was resolved (line 157).  When absent, a synthetic empty notes value
is used for every row (line 165). -/
structure DF where
  rows : List Row
  hasNotesCol : Bool
deriving DecidableEq, Repr

/-- The notes value of a row as used by the mask:
`df[notes_col].fillna("")` when the column exists, otherwise the synthetic
empty string series (line 165). -/
def notesOf (hasCol : Bool) (r : Row) : String :=
  if hasCol then r.notes.getD "" else ""

/-- Writing the coerced numeric value back into the cell, as
`df[vendor_col] = pd.to_numeric(df[vendor_col], errors="coerce")` does
(lines 167-168): unparsable values become NaN. -/
def coerceCell (c : Cell) : Cell :=
  match c.toNumeric with
  | some n => Cell.num n
  | none => Cell.missing

/-- Lines 167-168 applied to one row: the vendor and lab columns are
overwritten with their coerced values; workorder and notes are untouched. -/
def coerceRow (r : Row) : Row :=
  ⟨r.workorder, coerceCell r.vendor, coerceCell r.lab, r.notes⟩

/-- The candidate mask of line 170:
`(df[vendor_col] < df[lab_col]) & (notes_series.str.lower() != "updated")`.
A NaN on either side of `<` makes the comparison False in pandas. -/
def mask (hasCol : Bool) (r : Row) : Bool :=
  (match r.vendor.toNumeric, r.lab.toNumeric with
   | some v, some l => decide (v < l)
   | _, _ => false)
  && !(strLower (notesOf hasCol r) == "updated")

/-- Lines 181-187: for a candidate row, `(int(w), int(v))` is queued, and the
row is dropped from the submission set if either coercion raises. -/
def pairOf (r : Row) : Option (Int × Int) :=
  match r.workorder.toNumeric, r.lab.toNumeric with
  | some w, some v => some (w, v)
  | _, _ => none

/-- The membership test `df[workorder_col].isin(successfully_updated_ids)`
of line 195: a numeric cell matches an id in the list; a text or missing
cell never matches a list of integers in pandas. -/
def workorderIn (r : Row) (ids : List Int) : Bool :=
  match r.workorder with
  | .num n => ids.contains n
  | _ => false

/-- Lines 197-201 applied to one row.  When the notes column exists, only
rows passing `success_mask` are written `"UPDATED"`; when it does not, a
NOTES column is first created holding `""` for every row, then the
successful rows are written `"UPDATED"`. -/
def markRow (ids : List Int) (hasCol : Bool) (r : Row) : Row :=
  if workorderIn r ids then ⟨r.workorder, r.vendor, r.lab, some "UPDATED"⟩
  else if hasCol then r
  else ⟨r.workorder, r.vendor, r.lab, some ""⟩

/-- Lines 193-202: the marking step runs only when
`successfully_updated_ids` is non-empty; otherwise the frame is left as the
(already coerced) dataframe. -/
def applyMarks (ids : List Int) (df : DF) : DF :=
  if ids.isEmpty then df
  else ⟨df.rows.map (markRow ids df.hasNotesCol), true⟩

/-- Line 163: `total_workorders = df[workorder_col].dropna().count()`, the
number of rows whose workorder cell is not missing. -/
def totalWorkorders (df : DF) : Nat :=
  (df.rows.filter (fun r => !(r.workorder == Cell.missing))).length

/-- The rows of the latest sheet after the in-place coercion of the vendor
and lab columns (lines 167-168). -/
def coercedRows (df : DF) : List Row :=
  df.rows.map coerceRow

/-- Line 171: `to_process = df.loc[mask]`, the candidate rows. -/
def toProcessRows (df : DF) : List Row :=
  (coercedRows df).filter (mask df.hasNotesCol)

/-- Lines 176-187: the `(workorder, value)` pairs queued for the database,
dropping rows whose integer coercion fails. -/
def queuedPairs (df : DF) : List (Int × Int) :=
  (toProcessRows df).filterMap pairOf

/-- Abstract model of the SQL store seen through the UPDATE of lines 52-60.
`matchCount w` is the number of rows matched by the WHERE clause for
workorder id `w` (constant during the transaction, since the statement
never writes a column occurring in its own WHERE/JOIN conditions);
`failsAt w v` says whether executing the statement for the pair `(w, v)`
raises (connectivity failure, constraint violation, ...). -/
structure Store where
  matchCount : Int → Nat
  failsAt : Int → Int → Bool

/-- One `conn.execute(sql, {workorderid, value})` call (line 65): either an
exception or the affected-row count. -/
def Store.exec (st : Store) (w v : Int) : Except Unit Nat :=
  if st.failsAt w v then Except.error () else Except.ok (st.matchCount w)

/-- The loop of lines 62-70 inside `engine.begin()`: execute each pair in
order; an exception anywhere aborts the transaction (rollback) and
propagates, discarding every collected id; otherwise the ids whose
execution reported at least one affected row are collected in order. -/
def runUpdates (st : Store) : List (Int × Int) → Except Unit (List Int)
  | [] => Except.ok []
  | (w, v) :: rest =>
    match st.exec w v with
    | Except.error e => Except.error e
    | Except.ok rc =>
      match runUpdates st rest with
      | Except.error e => Except.error e
      | Except.ok ids => Except.ok (if 0 < rc then w :: ids else ids)

/-- `update_db` (src/discrepancy.py lines 41-75): early return `[]` on empty
input (line 46-48, before any engine is created), otherwise the
single-transaction loop. -/
def update_db (st : Store) (pairs : List (Int × Int)) : Except Unit (List Int) :=
  if pairs.isEmpty then Except.ok [] else runUpdates st pairs

/-- The statistics embedded in the notification body (lines 242-245);
`remaining` is the reported figure `total_workorders -
successful_updates_count` of line 245. -/
structure Stats where
  total_workorders : Nat
  discrepancy_count : Nat
  successful_updates_count : Nat
  remaining : Int
deriving DecidableEq, Repr

/-- The observable outcome of processing one artifact:
`rewritten = some out` iff the writer of lines 211-213 ran, with `out` the
latest-sheet content it wrote; `confirmed` is `successfully_updated_ids`. -/
structure ProcResult where
  rewritten : Option DF
  stats : Stats
  confirmed : List Int
deriving DecidableEq, Repr

/-- The data-processing core of `process_excel_file` (lines 162-214) on the
typed latest sheet: compute statistics, coerce the numeric columns in
place, select candidates, queue integer pairs, and — only when the queue is
non-empty — run `update_db`, mark the confirmed rows and rewrite the
artifact.  An exception from `update_db` propagates (the writer at line 211
is never reached). -/
def processDF (st : Store) (df : DF) : Except Unit ProcResult :=
  if (queuedPairs df).isEmpty then
    Except.ok ⟨none,
      ⟨totalWorkorders df, (toProcessRows df).length, 0, (totalWorkorders df : Int)⟩,
      []⟩
  else
    match update_db st (queuedPairs df) with
    | Except.error _ => Except.error ()
    | Except.ok ids =>
      Except.ok ⟨some (applyMarks ids ⟨coercedRows df, df.hasNotesCol⟩),
        ⟨totalWorkorders df, (toProcessRows df).length, ids.length,
          (totalWorkorders df : Int) - (ids.length : Int)⟩,
        ids⟩

/-- Python `str(v)` on a cell value, as used by the header scan
(line 130); a NaN prints as `nan`. -/
def cellToStr : Cell → String
  | .num n => toString n
  | .str s => s
  | .missing => "nan"

/-- Line 130-131: a raw row is the header row when its cell values,
stringified, lower-cased and stripped, include all three required labels. -/
def headerMatch (row : List Cell) : Bool :=
  let vals := row.map (fun c => strTrim (strLower (cellToStr c)))
  vals.contains "vendor bag count" && vals.contains "lab bag count"
    && vals.contains "workorder"

/-- The scan loop of lines 128-133, carrying the index of the first row of
the remaining list. -/
def searchHeader : List (List Cell) → Nat → Option Nat
  | [], _ => none
  | r :: rest, i => if headerMatch r then some i else searchHeader rest (i + 1)

/-- Lines 125-138: search the first `min(10, len(df_temp))` raw rows of the
latest sheet for the header row; `none` models the `ValueError` raised at
line 137 when no row in that range qualifies. -/
def findHeaderRow (rows : List (List Cell)) : Option Nat :=
  searchHeader (rows.take 10) 0

/-- Python `s.endswith(suffix)`, computed structurally. -/
def strEndsWith (s suf : String) : Bool :=
  List.isSuffixOf suf.data s.data

/-- Line 267: the snapshot keeps names ending in `.xlsx` or `.xls`. -/
def isExcelName (s : String) : Bool :=
  strEndsWith s ".xlsx" || strEndsWith s ".xls"

/-- The three lifecycle directories of lines 22-25 as lists of file names. -/
structure Locations where
  incoming : List String
  completed : List String
  error : List String
deriving DecidableEq, Repr

/-- The body of the loop at lines 273-287 for one file: processing either
succeeds (`outcome f = true`) and the file is moved to the completed
location, or raises and the file is moved to the error location; either
way `shutil.move` removes it from the incoming location. -/
def handleOne (outcome : String → Bool) (loc : Locations) (f : String) : Locations :=
  if outcome f then ⟨loc.incoming.erase f, loc.completed ++ [f], loc.error⟩
  else ⟨loc.incoming.erase f, loc.completed, loc.error ++ [f]⟩

/-- `process_new_files` (lines 258-287): take a snapshot of the spreadsheet
files in the incoming location at run start (line 267), then handle each
snapshot file once in order. -/
def process_new_files (outcome : String → Bool) (loc : Locations) : Locations :=
  (loc.incoming.filter isExcelName).foldl (handleOne outcome) loc

/-- Concrete store in which every workorder matches one row and no
execution fails. -/
def stAllOk : Store := ⟨fun _ => 1, fun _ _ => false⟩

/-- Concrete store reporting zero affected rows for every workorder. -/
def stZero : Store := ⟨fun _ => 0, fun _ _ => false⟩

/-- Concrete store in which every execution raises. -/
def stFail : Store := ⟨fun _ => 1, fun _ _ => true⟩

/-- Scenario row: workorder 100, vendor 3, lab 5, empty notes. -/
def rowA : Row := ⟨Cell.num 100, Cell.num 3, Cell.num 5, some ""⟩

/-- Scenario row: workorder 101, vendor 5, lab 5, empty notes. -/
def rowB : Row := ⟨Cell.num 101, Cell.num 5, Cell.num 5, some ""⟩

/-- Scenario row: workorder 102, vendor 2, lab 4, notes already updated. -/
def rowC : Row := ⟨Cell.num 102, Cell.num 2, Cell.num 4, some "updated"⟩

/-- The three-row scenario of spec section 8 item 6. -/
def dfScenario : DF := ⟨[rowA, rowB, rowC], true⟩

/-- A header row with the three required labels (whitespace and case vary). -/
def headerCells : List Cell :=
  [Cell.str " Vendor Bag Count ", Cell.str "LAB BAG COUNT", Cell.str "WorkOrder"]

/-- A non-header filler row. -/
def fillerRow : List Cell := [Cell.str "filler"]

/-- Sheet whose header sits at row index 9. -/
def sheetHdr9 : List (List Cell) := List.replicate 9 fillerRow ++ [headerCells]

/-- Sheet whose header first appears at row index 10. -/
def sheetHdr10 : List (List Cell) := List.replicate 10 fillerRow ++ [headerCells]

/-- Concrete lifecycle start state. -/
def locStart : Locations := ⟨["a.xlsx", "b.xls", "c.txt"], [], []⟩

/-- Concrete per-file outcome: only `a.xlsx` processes successfully. -/
def outcomeA : String → Bool := fun f => f == "a.xlsx"

/-- Store confirming workorder 100 with one affected row and reporting zero
affected rows for every other workorder; no execution raises. -/
def stMixed : Store := ⟨fun w => if w = 100 then 1 else 0, fun _ _ => false⟩

/-- The scenario sheet after a fully confirmed run: row 100 marked. -/
def outScenario : DF :=
  ⟨[⟨Cell.num 100, Cell.num 3, Cell.num 5, some "UPDATED"⟩, rowB, rowC], true⟩

/-- Sheet with one confirmed candidate and one non-candidate row whose
vendor cell is the unparsable text "N/A". -/
def dfC10 : DF :=
  ⟨[rowA, ⟨Cell.num 200, Cell.str "N/A", Cell.num 4, some ""⟩], true⟩

/-- `dfC10` as rewritten under the all-confirming store: row 100 marked,
and the non-candidate row's unparsable vendor cell replaced by missing. -/
def outC10 : DF :=
  ⟨[⟨Cell.num 100, Cell.num 3, Cell.num 5, some "UPDATED"⟩,
    ⟨Cell.num 200, Cell.missing, Cell.num 4, some ""⟩], true⟩

/-- Sheet with a single candidate whose vendor cell is the numeric text
`"3"`; used to exhibit the rewrite-without-confirmation behavior. -/
def dfC4 : DF := ⟨[⟨Cell.num 100, Cell.str "3", Cell.num 5, some ""⟩], true⟩

/-- The content actually written back for `dfC4` when the store confirms
nothing: no row marked, but the vendor cell is coerced from text to
number. -/
def outC4 : DF := ⟨[⟨Cell.num 100, Cell.num 3, Cell.num 5, some ""⟩], true⟩

/-- Coercion does not change the numeric reading of a cell. -/
theorem toNumeric_coerceCell (c : Cell) : (coerceCell c).toNumeric = c.toNumeric := by
  unfold coerceCell
  cases h : c.toNumeric <;> simp [Cell.toNumeric]

/-- Coercing twice is the same as coercing once. -/
theorem coerceCell_idem (c : Cell) : coerceCell (coerceCell c) = coerceCell c := by
  unfold coerceCell
  cases h : c.toNumeric <;> simp [Cell.toNumeric]

/-- Row coercion is idempotent. -/
theorem coerceRow_idem (r : Row) : coerceRow (coerceRow r) = coerceRow r := by
  simp [coerceRow, coerceCell_idem]

/-- Marking a row does not change its workorder cell. -/
theorem markRow_workorder (ids : List Int) (hc : Bool) (r : Row) :
    (markRow ids hc r).workorder = r.workorder := by
  unfold markRow
  split
  · rfl
  · split <;> rfl

/-- Marking a row does not change its vendor cell. -/
theorem markRow_vendor (ids : List Int) (hc : Bool) (r : Row) :
    (markRow ids hc r).vendor = r.vendor := by
  unfold markRow
  split
  · rfl
  · split <;> rfl

/-- Marking a row does not change its lab cell. -/
theorem markRow_lab (ids : List Int) (hc : Bool) (r : Row) :
    (markRow ids hc r).lab = r.lab := by
  unfold markRow
  split
  · rfl
  · split <;> rfl

/-- A successfully updated row is written the literal `"UPDATED"`. -/
theorem markRow_notes_of_in (ids : List Int) (hc : Bool) (r : Row)
    (hin : workorderIn r ids = true) : (markRow ids hc r).notes = some "UPDATED" := by
  simp [markRow, hin]

/-- An unconfirmed row keeps its notes cell, except that a freshly created
NOTES column holds the empty string. -/
theorem markRow_notes_of_notin (ids : List Int) (hc : Bool) (r : Row)
    (hin : workorderIn r ids = false) :
    (markRow ids hc r).notes = if hc then r.notes else some "" := by
  simp only [markRow, hin, Bool.false_eq_true, if_false]
  split <;> rfl

/-- `List.getD` through a `List.map`, at an in-bounds index. -/
theorem getD_map_of_lt {α β : Type} (f : α → β) (l : List α) (i : Nat) (d : β)
    (d' : α) (h : i < l.length) : (l.map f).getD i d = f (l.getD i d') := by
  rw [List.getD_eq_getElem?_getD, List.getD_eq_getElem?_getD,
    List.getElem?_eq_getElem (by simpa using h), List.getElem?_eq_getElem h]
  simp

/-- If the transaction loop returns, every queued execution was attempted
without raising. -/
theorem runUpdates_no_fail_of_ok (st : Store) (pairs : List (Int × Int))
    (ids : List Int) (h : runUpdates st pairs = Except.ok ids) :
    ∀ p ∈ pairs, st.failsAt p.1 p.2 = false := by
  induction pairs generalizing ids with
  | nil => intro p hp; cases hp
  | cons q rest ih =>
    obtain ⟨w, v⟩ := q
    intro p hp
    by_cases hf : st.failsAt w v
    · simp [runUpdates, Store.exec, hf] at h
    · cases hrest : runUpdates st rest with
      | error e => simp [runUpdates, Store.exec, hf, hrest] at h
      | ok ids2 =>
        rcases List.mem_cons.mp hp with hp | hp
        · subst hp; simpa using hf
        · exact ih ids2 hrest p hp

/-- When no queued execution raises, the transaction loop returns exactly
the queued workorder ids whose affected-row count is positive, in order. -/
theorem runUpdates_ok_of_no_fail (st : Store) (pairs : List (Int × Int))
    (hf : ∀ p ∈ pairs, st.failsAt p.1 p.2 = false) :
    runUpdates st pairs =
      Except.ok (pairs.filterMap
        (fun p => if 0 < st.matchCount p.1 then some p.1 else none)) := by
  induction pairs with
  | nil => rfl
  | cons q rest ih =>
    obtain ⟨w, v⟩ := q
    have h1 : st.failsAt w v = false := hf (w, v) (List.mem_cons_self _ _)
    have h2 := ih (fun p hp => hf p (List.mem_cons_of_mem _ hp))
    by_cases h3 : 0 < st.matchCount w <;>
      simp [runUpdates, Store.exec, h1, h2, List.filterMap_cons, h3]

/-- A raising execution anywhere in the queue makes the whole transaction
raise. -/
theorem runUpdates_error_of_fail (st : Store) (pairs : List (Int × Int))
    (h : ∃ p ∈ pairs, st.failsAt p.1 p.2 = true) :
    runUpdates st pairs = Except.error () := by
  cases heq : runUpdates st pairs with
  | error e => cases e; rfl
  | ok ids =>
    obtain ⟨p, hp, hfail⟩ := h
    have hcontra := runUpdates_no_fail_of_ok st pairs ids heq p hp
    rw [hcontra] at hfail
    cases hfail

/-- The id list of a successful transaction is determined by the queue and
the affected-row counts. -/
theorem runUpdates_ok_ids (st : Store) (pairs : List (Int × Int)) (ids : List Int)
    (h : runUpdates st pairs = Except.ok ids) :
    ids = pairs.filterMap (fun p => if 0 < st.matchCount p.1 then some p.1 else none) := by
  have hf := runUpdates_no_fail_of_ok st pairs ids h
  have h2 := runUpdates_ok_of_no_fail st pairs hf
  rw [h] at h2
  exact Except.ok.inj h2

/-- Same determination, lifted to `update_db`. -/
theorem update_db_ok_ids (st : Store) (pairs : List (Int × Int)) (ids : List Int)
    (h : update_db st pairs = Except.ok ids) :
    ids = pairs.filterMap (fun p => if 0 < st.matchCount p.1 then some p.1 else none) := by
  unfold update_db at h
  by_cases he : pairs.isEmpty
  · have : pairs = [] := List.isEmpty_iff.mp he
    subst this
    simp at h
    simp [h]
  · simp [he] at h
    exact runUpdates_ok_ids st pairs ids h

/-- C1: a row of the latest sheet is selected as a discrepancy candidate iff
its coerced vendor count is strictly below its coerced lab count (a failed
coercion never satisfies the comparison — in particular a vendor of "N/A"
never qualifies) and its notes value, lower-cased, differs from "updated";
a missing notes column behaves as empty notes for every row. -/
theorem c1_candidate_mask :
    (∀ (hc : Bool) (r : Row),
       mask hc (coerceRow r) = true ↔
         ((∃ v l, r.vendor.toNumeric = some v ∧ r.lab.toNumeric = some l ∧ v < l)
           ∧ strLower (notesOf hc r) ≠ "updated"))
    ∧ (∀ df : DF,
        toProcessRows df
          = (df.rows.filter (fun r => mask df.hasNotesCol (coerceRow r))).map coerceRow)
    ∧ (∀ (hc : Bool) (wo lab : Cell) (no : Option String),
        mask hc (coerceRow ⟨wo, Cell.str "N/A", lab, no⟩) = false)
    ∧ (∀ r : Row, notesOf false r = "") := by
  have hmain : ∀ (hc : Bool) (r : Row),
      mask hc (coerceRow r) = true ↔
        ((∃ v l, r.vendor.toNumeric = some v ∧ r.lab.toNumeric = some l ∧ v < l)
          ∧ strLower (notesOf hc r) ≠ "updated") := by
    intro hc r
    have hnotes : notesOf hc (coerceRow r) = notesOf hc r := by
      simp [notesOf, coerceRow]
    simp only [mask, coerceRow, toNumeric_coerceCell]
    rcases hv : r.vendor.toNumeric with _ | v <;> rcases hl : r.lab.toNumeric with _ | l <;>
      simp [hnotes, notesOf, coerceRow, hv, hl, Bool.and_eq_true, decide_eq_true_eq]
  refine ⟨hmain, fun df => ?_, fun hc wo lab no => ?_, fun r => rfl⟩
  · simp only [toProcessRows, coercedRows, List.filter_map]
    rfl
  · have hna : (Cell.str "N/A").toNumeric = none := by decide
    simp [mask, coerceRow, toNumeric_coerceCell, hna]

/-- C6: `update_db` on an empty queue performs no store operation and
returns the empty collection, whatever the store; on a queue in which no
execution raises it returns, inside one transaction, exactly those queued
workorder ids whose update affected at least one row — a zero affected-row
count is merely unconfirmed, not an error. -/
theorem c6_update_db_contract :
    (∀ st : Store, update_db st [] = Except.ok [])
    ∧ (∀ (st : Store) (pairs : List (Int × Int)),
        (∀ p ∈ pairs, st.failsAt p.1 p.2 = false) →
        update_db st pairs =
          Except.ok (pairs.filterMap
            (fun p => if 0 < st.matchCount p.1 then some p.1 else none))) := by
  refine ⟨fun st => rfl, fun st pairs hf => ?_⟩
  by_cases he : pairs.isEmpty
  · have : pairs = [] := List.isEmpty_iff.mp he
    subst this
    rfl
  · simp [update_db, he, runUpdates_ok_of_no_fail st pairs hf]


/-- Witness for C6 at a concrete queue: the empty queue is a no-op, and of
the queued pairs only workorder 100, whose update affected one row, is
returned — 200 with zero affected rows is unconfirmed. -/
theorem c6_update_db_contract_witness :
    update_db stMixed [] = Except.ok []
    ∧ update_db stMixed [(100, 5), (200, 7)] = Except.ok [100] := by
  constructor
  · exact c6_update_db_contract.1 stMixed
  · have h := c6_update_db_contract.2 stMixed [(100, 5), (200, 7)]
      (by intro p hp; rfl)
    rw [h]
    decide

/-- C2: if any per-pair execution issued by `update_db` raises, the whole
call raises instead of returning a confirmed set; consequently
`process_excel_file` propagates the error before reaching the writer, so
the artifact is not rewritten and every row keeps its original notes. -/
theorem c2_transaction_atomic :
    (∀ (st : Store) (pairs : List (Int × Int)) (p : Int × Int),
        p ∈ pairs → st.failsAt p.1 p.2 = true →
        update_db st pairs = Except.error ())
    ∧ (∀ (st : Store) (df : DF) (p : Int × Int),
        p ∈ queuedPairs df → st.failsAt p.1 p.2 = true →
        processDF st df = Except.error ()) := by
  have hupd : ∀ (st : Store) (pairs : List (Int × Int)) (p : Int × Int),
      p ∈ pairs → st.failsAt p.1 p.2 = true →
      update_db st pairs = Except.error () := by
    intro st pairs p hp hf
    have hne : pairs.isEmpty = false := by
      cases pairs
      · cases hp
      · rfl
    simp [update_db, hne]
    exact runUpdates_error_of_fail st pairs ⟨p, hp, hf⟩
  refine ⟨hupd, fun st df p hp hf => ?_⟩
  have hne : (queuedPairs df).isEmpty = false := by
    cases hq : queuedPairs df
    · rw [hq] at hp; cases hp
    · rfl
  simp [processDF, hne, hupd st (queuedPairs df) p hp hf]

/-- Witness for C2 at the scenario sheet: the single queued pair raises in
`stFail`, and processing the artifact propagates the error. -/
theorem c2_transaction_atomic_witness :
    processDF stFail dfScenario = Except.error () :=
  c2_transaction_atomic.2 stFail dfScenario (100, 5) (by decide) rfl

/-- The workorder cell of a coerced row is the original workorder cell. -/
theorem workorderIn_coerceRow (r : Row) (ids : List Int) :
    workorderIn (coerceRow r) ids = workorderIn r ids := by
  simp [workorderIn, coerceRow]

/-- No workorder cell matches the empty id list. -/
theorem workorderIn_nil (r : Row) : workorderIn r [] = false := by
  unfold workorderIn
  cases r.workorder <;> simp

/-- Unfolding `processDF` when no pair is queued: no store call, no rewrite. -/
theorem processDF_ok_empty (st : Store) (df : DF)
    (he : (queuedPairs df).isEmpty = true) :
    processDF st df = Except.ok ⟨none,
      ⟨totalWorkorders df, (toProcessRows df).length, 0, (totalWorkorders df : Int)⟩,
      []⟩ := by
  simp [processDF, he]

/-- Unfolding `processDF` when the store transaction succeeds: the artifact
is rewritten (whether or not any row was confirmed). -/
theorem processDF_ok_nonempty (st : Store) (df : DF) (ids : List Int)
    (hne : (queuedPairs df).isEmpty = false)
    (hupd : update_db st (queuedPairs df) = Except.ok ids) :
    processDF st df = Except.ok ⟨some (applyMarks ids ⟨coercedRows df, df.hasNotesCol⟩),
      ⟨totalWorkorders df, (toProcessRows df).length, ids.length,
        (totalWorkorders df : Int) - (ids.length : Int)⟩,
      ids⟩ := by
  simp [processDF, hne, hupd]

/-- Inversion: everything a successful `processDF` run determines. -/
theorem processDF_ok_inv (st : Store) (df : DF) (res : ProcResult)
    (h : processDF st df = Except.ok res) :
    res.stats.total_workorders = totalWorkorders df
    ∧ res.stats.discrepancy_count = (toProcessRows df).length
    ∧ res.stats.successful_updates_count = res.confirmed.length
    ∧ res.stats.remaining = (totalWorkorders df : Int) - (res.confirmed.length : Int)
    ∧ update_db st (queuedPairs df) = Except.ok res.confirmed
    ∧ res.rewritten = (if (queuedPairs df).isEmpty then none
        else some (applyMarks res.confirmed ⟨coercedRows df, df.hasNotesCol⟩)) := by
  cases he : (queuedPairs df).isEmpty with
  | true =>
    rw [processDF_ok_empty st df he] at h
    have hres := Except.ok.inj h
    subst hres
    have hq : queuedPairs df = [] := List.isEmpty_iff.mp he
    simp [hq, update_db]
  | false =>
    cases hu : update_db st (queuedPairs df) with
    | error e =>
      cases e
      have hproc : processDF st df = Except.error () := by simp [processDF, he, hu]
      rw [hproc] at h
      cases h
    | ok ids =>
      rw [processDF_ok_nonempty st df ids he hu] at h
      have hres := Except.ok.inj h
      subst hres
      simp [hu]

/-- C8: after a successful run, `total_workorders` is the count of rows with
a non-missing workorder cell (independent of the candidate mask), the
discrepancy count is the number of candidate rows (the queue of submitted
pairs can only be shorter, because integer-coercion failures drop rows from
submission but not from the count), and the reported remaining figure is
`total_workorders - successful_updates_count`. -/
theorem c8_run_statistics :
    ∀ (st : Store) (df : DF) (res : ProcResult),
      processDF st df = Except.ok res →
        res.stats.total_workorders
            = (df.rows.filter (fun r => !(r.workorder == Cell.missing))).length
        ∧ res.stats.discrepancy_count = (toProcessRows df).length
        ∧ (queuedPairs df).length ≤ res.stats.discrepancy_count
        ∧ res.stats.remaining
            = (res.stats.total_workorders : Int)
                - (res.stats.successful_updates_count : Int) := by
  intro st df res h
  obtain ⟨h1, h2, h3, h4, _, _⟩ := processDF_ok_inv st df res h
  refine ⟨h1, h2, ?_, by rw [h1, h3, h4]⟩
  rw [h2]
  exact List.length_filterMap_le pairOf (toProcessRows df)


/-- Witness for C8 at the scenario sheet under the all-confirming store:
3 total workorders, 1 discrepancy, 1 successful update, remaining figure
2 = 3 - 1 (and not discrepancy - successful = 0). -/
theorem c8_run_statistics_witness :
    (3 : Nat) = (dfScenario.rows.filter (fun r => !(r.workorder == Cell.missing))).length
    ∧ (1 : Nat) = (toProcessRows dfScenario).length
    ∧ (queuedPairs dfScenario).length ≤ 1
    ∧ (2 : Int) = ((3 : Nat) : Int) - ((1 : Nat) : Int) :=
  c8_run_statistics stAllOk dfScenario ⟨some outScenario, ⟨3, 1, 1, 2⟩, [100]⟩ (by decide)

/-- C10: whenever the artifact is rewritten, every row of the written latest
sheet holds the numerically coerced vendor and lab values — a cell whose
value fails coercion is written back as missing, even on rows that were
never candidates. -/
theorem c10_coerced_cells_written :
    (∀ (st : Store) (df : DF) (res : ProcResult) (out : DF),
        processDF st df = Except.ok res → res.rewritten = some out →
          out.rows.length = df.rows.length
          ∧ ∀ i, i < df.rows.length →
              (out.rows.getD i rowDefault).vendor
                  = coerceCell ((df.rows.getD i rowDefault).vendor)
              ∧ (out.rows.getD i rowDefault).lab
                  = coerceCell ((df.rows.getD i rowDefault).lab))
    ∧ (∀ c : Cell, c.toNumeric = none → coerceCell c = Cell.missing) := by
  refine ⟨fun st df res out h hrw => ?_, fun c hc => by simp [coerceCell, hc]⟩
  obtain ⟨_, _, _, _, _, h6⟩ := processDF_ok_inv st df res h
  rw [hrw] at h6
  cases he : (queuedPairs df).isEmpty with
  | true => rw [he] at h6; simp at h6
  | false =>
    rw [he] at h6
    simp only [if_false, Bool.false_eq_true] at h6
    have hout : out = applyMarks res.confirmed ⟨coercedRows df, df.hasNotesCol⟩ :=
      Option.some.inj h6
    subst hout
    unfold applyMarks coercedRows
    cases hi : res.confirmed.isEmpty with
    | true =>
      simp only [hi, if_true]
      refine ⟨by simp, fun i hlt => ?_⟩
      rw [getD_map_of_lt coerceRow df.rows i rowDefault rowDefault hlt]
      exact ⟨rfl, rfl⟩
    | false =>
      simp only [hi, Bool.false_eq_true, if_false]
      refine ⟨by simp, fun i hlt => ?_⟩
      rw [List.map_map]
      rw [getD_map_of_lt _ df.rows i rowDefault rowDefault hlt]
      simp only [Function.comp_apply, markRow_vendor, markRow_lab]
      exact ⟨rfl, rfl⟩



/-- Witness for C10: in the rewritten sheet the never-candidate second row
holds its coerced cells — the "N/A" vendor became missing. -/
theorem c10_coerced_cells_written_witness :
    (outC10.rows.getD 1 rowDefault).vendor
        = coerceCell ((dfC10.rows.getD 1 rowDefault).vendor)
    ∧ (outC10.rows.getD 1 rowDefault).lab
        = coerceCell ((dfC10.rows.getD 1 rowDefault).lab) :=
  (c10_coerced_cells_written.1 stAllOk dfC10 ⟨some outC10, ⟨2, 1, 1, 1⟩, [100]⟩ outC10
    (by decide) rfl).2 1 (by decide)

/-- Counterexample to C3 as stated: in the rewritten scenario sheet the
confirmed row's notes cell holds `"UPDATED"`, which is not the literal
string `"updated"` the claim names. -/
theorem c3_literal_counterexample :
    processDF stAllOk dfScenario = Except.ok ⟨some outScenario, ⟨3, 1, 1, 2⟩, [100]⟩
    ∧ workorderIn (dfScenario.rows.getD 0 rowDefault) [100] = true
    ∧ (outScenario.rows.getD 0 rowDefault).notes ≠ some "updated" :=
  ⟨by decide, by decide, by decide⟩

/-- C3 (amended): in the rewritten artifact every row whose workorder is in
the confirmed set has its notes cell set to the literal `"UPDATED"`
(uppercase — equal to "updated" only case-insensitively); every other row
keeps its notes cell, except that a freshly created notes column holds the
empty string; and a candidate whose update affected zero rows is never in
the confirmed set. -/
theorem c3_marking_amended :
    ∀ (st : Store) (df : DF) (res : ProcResult) (out : DF),
      processDF st df = Except.ok res → res.rewritten = some out →
        out.rows.length = df.rows.length
        ∧ (∀ i, i < df.rows.length →
            (workorderIn (df.rows.getD i rowDefault) res.confirmed = true →
              (out.rows.getD i rowDefault).notes = some "UPDATED")
            ∧ (workorderIn (df.rows.getD i rowDefault) res.confirmed = false →
              (out.rows.getD i rowDefault).notes = (df.rows.getD i rowDefault).notes
              ∨ (df.hasNotesCol = false
                  ∧ (out.rows.getD i rowDefault).notes = some "")))
        ∧ (∀ w v, (w, v) ∈ queuedPairs df → st.matchCount w = 0 →
            w ∉ res.confirmed) := by
  intro st df res out h hrw
  obtain ⟨_, _, _, _, h5, h6⟩ := processDF_ok_inv st df res h
  have hgate : ∀ w v, (w, v) ∈ queuedPairs df → st.matchCount w = 0 →
      w ∉ res.confirmed := by
    intro w v _ hzero hmem
    rw [update_db_ok_ids st (queuedPairs df) res.confirmed h5] at hmem
    obtain ⟨p, _, hp⟩ := List.mem_filterMap.mp hmem
    by_cases hpos : 0 < st.matchCount p.1
    · simp [hpos] at hp
      rw [hp] at hpos
      omega
    · simp [hpos] at hp
  rw [hrw] at h6
  cases he : (queuedPairs df).isEmpty with
  | true => rw [he] at h6; simp at h6
  | false =>
    rw [he] at h6
    simp only [if_false, Bool.false_eq_true] at h6
    have hout : out = applyMarks res.confirmed ⟨coercedRows df, df.hasNotesCol⟩ :=
      Option.some.inj h6
    subst hout
    unfold applyMarks coercedRows
    cases hi : res.confirmed.isEmpty with
    | true =>
      have hids : res.confirmed = [] := List.isEmpty_iff.mp hi
      simp only [hi, if_true]
      refine ⟨by simp, fun i hlt => ?_, hgate⟩
      rw [getD_map_of_lt coerceRow df.rows i rowDefault rowDefault hlt]
      rw [hids]
      refine ⟨fun hin => ?_, fun _ => Or.inl rfl⟩
      rw [workorderIn_nil] at hin
      cases hin
    | false =>
      simp only [hi, Bool.false_eq_true, if_false]
      refine ⟨by simp, fun i hlt => ?_, hgate⟩
      rw [List.map_map]
      rw [getD_map_of_lt _ df.rows i rowDefault rowDefault hlt]
      simp only [Function.comp_apply]
      have hwc : workorderIn (coerceRow (df.rows.getD i rowDefault)) res.confirmed
          = workorderIn (df.rows.getD i rowDefault) res.confirmed :=
        workorderIn_coerceRow _ _
      constructor
      · intro hin
        rw [markRow_notes_of_in _ _ _ (by rw [hwc]; exact hin)]
      · intro hin
        rw [markRow_notes_of_notin _ _ _ (by rw [hwc]; exact hin)]
        cases hc : df.hasNotesCol with
        | true => exact Or.inl (by simp [hc, coerceRow])
        | false => exact Or.inr ⟨rfl, by simp⟩

/-- Witness for the amended C3 at the scenario sheet: the confirmed row 100
is written the literal `"UPDATED"`. -/
theorem c3_marking_amended_witness :
    (outScenario.rows.getD 0 rowDefault).notes = some "UPDATED" := by
  have h := c3_marking_amended stAllOk dfScenario
    ⟨some outScenario, ⟨3, 1, 1, 2⟩, [100]⟩ outScenario (by decide) rfl
  exact (h.2.1 0 (by decide)).1 (by decide)



/-- C4 fails on the code: with one candidate submitted and zero rows
affected in the store, the confirmed set is empty, yet the artifact IS
rewritten (with changed content), although line 204 logs that the file
will not be modified. -/
theorem c4_rewrite_despite_no_confirmation :
    processDF stZero dfC4 = Except.ok ⟨some outC4, ⟨1, 1, 0, 1⟩, []⟩
    ∧ outC4 ≠ dfC4 :=
  ⟨by decide, by decide⟩

/-- The scan loop finds nothing iff no scanned row matches. -/
theorem searchHeader_none_iff (l : List (List Cell)) :
    ∀ k : Nat, searchHeader l k = none ↔ ∀ r ∈ l, headerMatch r = false := by
  induction l with
  | nil => intro k; simp [searchHeader]
  | cons r rest ih =>
    intro k
    cases hm : headerMatch r with
    | true => simp [searchHeader, hm]
    | false => simp [searchHeader, hm, ih (k + 1)]

/-- What a successful scan determines: the returned index is the offset of
the first matching row. -/
theorem searchHeader_some (l : List (List Cell)) :
    ∀ (k i : Nat), searchHeader l k = some i →
      ∃ j, i = k + j ∧ j < l.length ∧ headerMatch (l.getD j []) = true
        ∧ ∀ m, m < j → headerMatch (l.getD m []) = false := by
  induction l with
  | nil => intro k i h; cases h
  | cons r rest ih =>
    intro k i h
    cases hm : headerMatch r with
    | true =>
      simp [searchHeader, hm] at h
      exact ⟨0, by omega, by simp, by simpa [List.getD_cons_zero] using hm,
        fun m hm0 => absurd hm0 (Nat.not_lt_zero m)⟩
    | false =>
      simp [searchHeader, hm] at h
      obtain ⟨j, h1, h2, h3, h4⟩ := ih (k + 1) i h
      refine ⟨j + 1, by omega, by simpa using Nat.succ_lt_succ h2, ?_, ?_⟩
      · rw [List.getD_cons_succ]; exact h3
      · intro m hm1
        cases m with
        | zero => rw [List.getD_cons_zero]; exact hm
        | succ m2 => rw [List.getD_cons_succ]; exact h4 m2 (by omega)

/-- `List.getD` through `List.take`, below the cut. -/
theorem getD_take_of_lt {α : Type} (l : List α) (n i : Nat) (d : α) (h : i < n) :
    (l.take n).getD i d = l.getD i d := by
  rw [List.getD_eq_getElem?_getD, List.getD_eq_getElem?_getD, List.getElem?_take]
  simp [h]

/-- An in-bounds `List.getD` is a member. -/
theorem getD_mem_of_lt {α : Type} (l : List α) (i : Nat) (d : α) (h : i < l.length) :
    l.getD i d ∈ l := by
  rw [List.getD_eq_getElem?_getD, List.getElem?_eq_getElem h]
  simp [List.getElem_mem h]

/-- C5: the header locator scans exactly rows `0..min(10, len)-1` of the
latest sheet: it raises the header-not-found error iff no row in that range
matches, and a found index is the first matching row in that range; in
particular a header at row index 9 is found while one first appearing at
row index 10 is not. -/
theorem c5_header_locator :
    (∀ rows : List (List Cell),
       (findHeaderRow rows = none ↔
         ∀ i, i < min 10 rows.length → headerMatch (rows.getD i []) = false))
    ∧ (∀ (rows : List (List Cell)) (i : Nat),
        findHeaderRow rows = some i →
          i < min 10 rows.length ∧ headerMatch (rows.getD i []) = true
            ∧ ∀ j, j < i → headerMatch (rows.getD j []) = false)
    ∧ findHeaderRow sheetHdr9 = some 9
    ∧ findHeaderRow sheetHdr10 = none := by
  refine ⟨fun rows => ?_, fun rows i h => ?_, by decide, by decide⟩
  · rw [findHeaderRow, searchHeader_none_iff]
    constructor
    · intro hall i hi
      have h10 : i < 10 := by omega
      have hlen : i < rows.length := by omega
      have hlent : i < (rows.take 10).length := by rw [List.length_take]; omega
      have hmem := getD_mem_of_lt (rows.take 10) i [] hlent
      rw [getD_take_of_lt rows 10 i [] h10] at hmem
      rw [← getD_take_of_lt rows 10 i [] h10]
      exact hall _ (getD_mem_of_lt (rows.take 10) i [] hlent)
    · intro hidx r hr
      obtain ⟨n, hn, heq⟩ := List.mem_iff_getElem.mp hr
      have hlen : n < 10 ⊓ rows.length := by
        rw [List.length_take] at hn; exact hn
      have h10 : n < 10 := by omega
      have hmin : n < min 10 rows.length := by omega
      have hgd : (rows.take 10).getD n [] = r := by
        rw [List.getD_eq_getElem?_getD, List.getElem?_eq_getElem hn, heq]
        rfl
      rw [← hgd, getD_take_of_lt rows 10 n [] h10]
      exact hidx n hmin
  · rw [findHeaderRow] at h
    obtain ⟨j, h1, h2, h3, h4⟩ := searchHeader_some (rows.take 10) 0 i h
    have hij : i = j := by omega
    subst hij
    rw [List.length_take] at h2
    have hmin : i < min 10 rows.length := by omega
    have h10 : i < 10 := by omega
    refine ⟨hmin, ?_, ?_⟩
    · rw [← getD_take_of_lt rows 10 i [] h10]; exact h3
    · intro j2 hj2
      rw [← getD_take_of_lt rows 10 j2 [] (by omega)]
      exact h4 j2 hj2

/-- Witness for C5: applying the locator contract to the sheet whose header
sits at row index 9. -/
theorem c5_header_locator_witness :
    9 < min 10 sheetHdr9.length ∧ headerMatch (sheetHdr9.getD 9 []) = true := by
  have h := c5_header_locator.2.1 sheetHdr9 9 (by decide)
  exact ⟨h.1, h.2.1⟩

/-- The incoming location after the lifecycle loop: every handled file is
erased in order, nothing else is touched. -/
theorem foldl_handleOne_incoming (o : String → Bool) (l : List String) :
    ∀ loc : Locations,
      (l.foldl (handleOne o) loc).incoming
        = l.foldl (fun cur f => cur.erase f) loc.incoming := by
  induction l with
  | nil => intro loc; rfl
  | cons f rest ih =>
    intro loc
    cases ho : o f <;> simp [List.foldl_cons, handleOne, ho, ih]

/-- The completed location after the lifecycle loop: the successfully
processed files are appended in order. -/
theorem foldl_handleOne_completed (o : String → Bool) (l : List String) :
    ∀ loc : Locations,
      (l.foldl (handleOne o) loc).completed
        = loc.completed ++ l.filter (fun f => o f) := by
  induction l with
  | nil => intro loc; simp
  | cons f rest ih =>
    intro loc
    cases ho : o f <;> simp [List.foldl_cons, handleOne, ho, ih, List.filter_cons]

/-- The error location after the lifecycle loop: the failing files are
appended in order. -/
theorem foldl_handleOne_error (o : String → Bool) (l : List String) :
    ∀ loc : Locations,
      (l.foldl (handleOne o) loc).error
        = loc.error ++ l.filter (fun f => !(o f)) := by
  induction l with
  | nil => intro loc; simp
  | cons f rest ih =>
    intro loc
    cases ho : o f <;> simp [List.foldl_cons, handleOne, ho, ih, List.filter_cons]

/-- Erasing files only shrinks a location. -/
theorem mem_foldl_erase_subset (x : String) (l : List String) :
    ∀ cur : List String, x ∈ l.foldl (fun c g => c.erase g) cur → x ∈ cur := by
  induction l with
  | nil => intro cur h; exact h
  | cons f rest ih =>
    intro cur h
    exact List.mem_of_mem_erase (ih (cur.erase f) h)

/-- A handled file is gone from a duplicate-free incoming location. -/
theorem not_mem_foldl_erase (f : String) (l : List String) :
    ∀ cur : List String, cur.Nodup → f ∈ l →
      f ∉ l.foldl (fun c g => c.erase g) cur := by
  induction l with
  | nil => intro cur _ hf; cases hf
  | cons g rest ih =>
    intro cur hnd hf
    rcases List.mem_cons.mp hf with hf | hf
    · subst hf
      intro hmem
      have hsub := mem_foldl_erase_subset f rest (cur.erase f) hmem
      rcases List.Nodup.mem_erase_iff hnd |>.mp hsub with ⟨hne, _⟩
      exact hne rfl
    · exact ih (cur.erase g) (hnd.erase g) hf

/-- A file that is never handled stays in the incoming location. -/
theorem mem_foldl_erase_of_not_mem (g : String) (l : List String)
    (hg : g ∉ l) : ∀ cur : List String, g ∈ cur →
      g ∈ l.foldl (fun c x => c.erase x) cur := by
  induction l with
  | nil => intro cur h; exact h
  | cons f rest ih =>
    intro cur h
    have hne : g ≠ f := fun he => hg (he ▸ List.mem_cons_self f rest)
    exact ih (fun hr => hg (List.mem_cons_of_mem f hr)) (cur.erase f)
      ((List.mem_erase_of_ne hne).mpr h)

/-- C9: every spreadsheet file in the run-start snapshot of the incoming
location is moved exactly once — it leaves the incoming location, lands in
the completed location iff its processing succeeded and in the error
location iff it raised, never in both; files outside the snapshot never
leave the incoming location. -/
theorem c9_file_lifecycle :
    ∀ (outcome : String → Bool) (loc : Locations) (f : String),
      loc.incoming.Nodup →
      f ∈ loc.incoming.filter isExcelName →
      f ∉ loc.completed →
      f ∉ loc.error →
        (f ∉ (process_new_files outcome loc).incoming
          ∧ (outcome f = true →
              f ∈ (process_new_files outcome loc).completed
                ∧ f ∉ (process_new_files outcome loc).error)
          ∧ (outcome f = false →
              f ∈ (process_new_files outcome loc).error
                ∧ f ∉ (process_new_files outcome loc).completed))
        ∧ (∀ g ∈ loc.incoming, isExcelName g = false →
            g ∈ (process_new_files outcome loc).incoming) := by
  intro outcome loc f hnd hf hfc hfe
  unfold process_new_files
  have hinc := foldl_handleOne_incoming outcome (loc.incoming.filter isExcelName) loc
  have hcom := foldl_handleOne_completed outcome (loc.incoming.filter isExcelName) loc
  have herr := foldl_handleOne_error outcome (loc.incoming.filter isExcelName) loc
  refine ⟨⟨?_, fun ho => ⟨?_, ?_⟩, fun ho => ⟨?_, ?_⟩⟩, fun g hg hgx => ?_⟩
  · rw [hinc]
    exact not_mem_foldl_erase f (loc.incoming.filter isExcelName) loc.incoming hnd hf
  · rw [hcom]
    exact List.mem_append_right _ (List.mem_filter.mpr ⟨hf, ho⟩)
  · rw [herr]
    intro hmem
    rcases List.mem_append.mp hmem with hmem | hmem
    · exact hfe hmem
    · have hneg := (List.mem_filter.mp hmem).2
      rw [ho] at hneg
      cases hneg
  · rw [herr]
    refine List.mem_append_right _ (List.mem_filter.mpr ⟨hf, ?_⟩)
    rw [ho]
    rfl
  · rw [hcom]
    intro hmem
    rcases List.mem_append.mp hmem with hmem | hmem
    · exact hfc hmem
    · have hpos := (List.mem_filter.mp hmem).2
      rw [ho] at hpos
      cases hpos
  · rw [hinc]
    refine mem_foldl_erase_of_not_mem g (loc.incoming.filter isExcelName) ?_
      loc.incoming hg
    intro hmem
    have := (List.mem_filter.mp hmem).2
    rw [hgx] at this
    cases this

/-- Lower-casing the marker literal yields the filter literal. -/
theorem strLower_UPDATED : strLower "UPDATED" = "updated" := by decide

/-- Coercion and marking commute: marking touches only notes, coercion only
vendor and lab. -/
theorem coerceRow_markRow (ids : List Int) (hc : Bool) (r : Row) :
    coerceRow (markRow ids hc r) = markRow ids hc (coerceRow r) := by
  unfold markRow
  rw [workorderIn_coerceRow]
  cases hin : workorderIn r ids with
  | true => simp [hin, coerceRow]
  | false => cases hc <;> simp [hin, coerceRow]

/-- Marking does not change which ids a row's workorder matches. -/
theorem workorderIn_markRow (ids2 ids : List Int) (hc : Bool) (r : Row) :
    workorderIn (markRow ids hc r) ids2 = workorderIn r ids2 := by
  unfold workorderIn
  rw [markRow_workorder]

/-- The mask on a marked row: a freshly marked row is excluded (its notes
read "UPDATED", whose lower-casing is "updated"), and an unmarked row keeps
its original mask value even when the notes column was freshly created. -/
theorem mask_markRow (ids : List Int) (hc : Bool) (r : Row) :
    mask true (markRow ids hc r) = (!(workorderIn r ids) && mask hc r) := by
  cases hin : workorderIn r ids with
  | true =>
    simp [markRow, hin, mask, notesOf, strLower_UPDATED]
  | false =>
    cases hc with
    | true => simp [markRow, hin]
    | false => simp [markRow, hin, mask, notesOf]

/-- Marking does not change the queued pair of a row. -/
theorem pairOf_markRow (ids : List Int) (hc : Bool) (r : Row) :
    pairOf (markRow ids hc r) = pairOf r := by
  unfold pairOf
  rw [markRow_workorder, markRow_lab]

/-- Rows of the coerced sheet are fixed points of coercion. -/
theorem coerceRow_mem_coercedRows (df : DF) (c : Row) (hc : c ∈ coercedRows df) :
    coerceRow c = c := by
  obtain ⟨c0, _, hc0⟩ := List.mem_map.mp hc
  rw [← hc0]
  exact coerceRow_idem c0

/-- Every pair queued by a second run over the rewritten sheet was already
queued by the first run: marking only removes rows from the mask, and
coercion is idempotent. -/
theorem queuedPairs_applyMarks_subset (df : DF) (ids : List Int) :
    ∀ p ∈ queuedPairs (applyMarks ids ⟨coercedRows df, df.hasNotesCol⟩),
      p ∈ queuedPairs df := by
  intro p hp
  unfold applyMarks at hp
  cases hi : ids.isEmpty with
  | true =>
    simp only [hi, if_true] at hp
    obtain ⟨r, hr, hpr⟩ := List.mem_filterMap.mp hp
    obtain ⟨hrm, hrmask⟩ := List.mem_filter.mp hr
    obtain ⟨c, hcm, hcr⟩ := List.mem_map.mp hrm
    have hfix : coerceRow c = c := coerceRow_mem_coercedRows df c hcm
    rw [hfix] at hcr
    subst hcr
    exact List.mem_filterMap.mpr ⟨c, List.mem_filter.mpr ⟨hcm, hrmask⟩, hpr⟩
  | false =>
    simp only [hi, Bool.false_eq_true, if_false] at hp
    obtain ⟨r, hr, hpr⟩ := List.mem_filterMap.mp hp
    obtain ⟨hrm, hrmask⟩ := List.mem_filter.mp hr
    obtain ⟨m, hmm, hmr⟩ := List.mem_map.mp hrm
    obtain ⟨c, hcm, hcmk⟩ := List.mem_map.mp hmm
    have hfix : coerceRow c = c := coerceRow_mem_coercedRows df c hcm
    have hrc : r = markRow ids df.hasNotesCol c := by
      rw [← hmr, ← hcmk, coerceRow_markRow, hfix]
    subst hrc
    rw [mask_markRow] at hrmask
    have hmask : mask df.hasNotesCol c = true := Bool.and_elim_right hrmask
    rw [pairOf_markRow] at hpr
    exact List.mem_filterMap.mpr ⟨c, List.mem_filter.mpr ⟨hcm, hmask⟩, hpr⟩

/-- A workorder matching a sub-collection of ids matches the larger one. -/
theorem workorderIn_mono (r : Row) (ids1 ids2 : List Int)
    (hsub : ∀ w ∈ ids2, w ∈ ids1) (h : workorderIn r ids2 = true) :
    workorderIn r ids1 = true := by
  unfold workorderIn at h ⊢
  cases hw : r.workorder with
  | num n =>
    rw [hw] at h
    exact List.elem_iff.mpr (hsub n (List.elem_iff.mp h))
  | str s => rw [hw] at h; cases h
  | missing => rw [hw] at h; cases h

/-- C7: reconciliation is idempotent through the notes filter — in the
artifact written by a successful run, no row marked by that run is selected
as a candidate again (its notes now read "UPDATED", excluded
case-insensitively), and a second run over the written artifact against the
same store marks no row that the first run did not mark. -/
theorem c7_idempotent_reconciliation :
    ∀ (st : Store) (df : DF) (res : ProcResult) (out : DF),
      processDF st df = Except.ok res → res.rewritten = some out →
        (∀ r ∈ out.rows, workorderIn r res.confirmed = true →
            mask out.hasNotesCol (coerceRow r) = false)
        ∧ (∀ res2 : ProcResult, processDF st out = Except.ok res2 →
            ∀ r ∈ out.rows, workorderIn r res2.confirmed = true →
              workorderIn r res.confirmed = true) := by
  intro st df res out h hrw
  obtain ⟨_, _, _, _, hupd1, h6⟩ := processDF_ok_inv st df res h
  rw [hrw] at h6
  cases he : (queuedPairs df).isEmpty with
  | true => rw [he] at h6; simp at h6
  | false =>
    rw [he] at h6
    simp only [if_false, Bool.false_eq_true] at h6
    have hout : out = applyMarks res.confirmed ⟨coercedRows df, df.hasNotesCol⟩ :=
      Option.some.inj h6
    constructor
    · intro r hr hin
      cases hi : res.confirmed.isEmpty with
      | true =>
        rw [List.isEmpty_iff.mp hi, workorderIn_nil] at hin
        cases hin
      | false =>
        rw [hout] at hr
        unfold applyMarks at hr
        simp only [hi, Bool.false_eq_true, if_false] at hr
        obtain ⟨c, hcm, hcr⟩ := List.mem_map.mp hr
        have hfix : coerceRow c = c := coerceRow_mem_coercedRows df c hcm
        have hhc : out.hasNotesCol = true := by
          rw [hout]
          unfold applyMarks
          simp [hi]
        rw [hhc, ← hcr, coerceRow_markRow, hfix, mask_markRow]
        rw [← hcr, workorderIn_markRow] at hin
        simp [hin]
    · intro res2 h2 r hr hin2
      obtain ⟨_, _, _, _, hupd2, _⟩ := processDF_ok_inv st out res2 h2
      have hsub : ∀ w ∈ res2.confirmed, w ∈ res.confirmed := by
        intro w hw
        rw [update_db_ok_ids st (queuedPairs out) res2.confirmed hupd2] at hw
        obtain ⟨p, hp, hpe⟩ := List.mem_filterMap.mp hw
        by_cases hpos : 0 < st.matchCount p.1
        · rw [if_pos hpos] at hpe
          have hp1 : p ∈ queuedPairs df := by
            rw [hout] at hp
            exact queuedPairs_applyMarks_subset df res.confirmed p hp
          rw [update_db_ok_ids st (queuedPairs df) res.confirmed hupd1]
          exact List.mem_filterMap.mpr ⟨p, hp1, by rw [if_pos hpos]; exact hpe⟩
        · rw [if_neg hpos] at hpe
          cases hpe
      exact workorderIn_mono r res.confirmed res2.confirmed hsub hin2

/-- Witness for C7 at the scenario sheet: the row marked by the first run
(workorder 100, now noted "UPDATED") is not a candidate for a second run. -/
theorem c7_idempotent_reconciliation_witness :
    mask outScenario.hasNotesCol
        (coerceRow (outScenario.rows.getD 0 rowDefault)) = false := by
  have h := c7_idempotent_reconciliation stAllOk dfScenario
    ⟨some outScenario, ⟨3, 1, 1, 2⟩, [100]⟩ outScenario (by decide) rfl
  exact h.1 (outScenario.rows.getD 0 rowDefault) (by decide) (by decide)

/-- Witness for C9 at a concrete run: `a.xlsx` succeeds and is moved to the
completed location, leaving the incoming location. -/
theorem c9_file_lifecycle_witness :
    "a.xlsx" ∉ (process_new_files outcomeA locStart).incoming
    ∧ "a.xlsx" ∈ (process_new_files outcomeA locStart).completed
    ∧ "a.xlsx" ∉ (process_new_files outcomeA locStart).error := by
  have h := c9_file_lifecycle outcomeA locStart "a.xlsx"
    (by decide) (by decide) (by decide) (by decide)
  exact ⟨h.1.1, (h.1.2.1 rfl).1, (h.1.2.1 rfl).2⟩


end Idexx
